import Mathlib

/-!
Formal model of the `poll-hooks` polling engine (TypeScript package
`@rezzed.ai/poll-hooks`), shallowly embedded in Lean 4, with proofs about its
triage sort, backoff controller, lifecycle operations, and error isolation.

Sources modelled: `src/types.ts` (the priority table and data shapes) and
`src/poller.ts` (the `Poller` class). The lifecycle hooks and the pluggable
task source are external collaborators; one poll cycle's interaction with them
is modelled by an oracle (`CycleEnv`) that fixes the outcome of every hook
invocation and source call the cycle can make, and the engine's observable
behaviour is returned as the list of actions (`Event`) the cycle performs, in
order. JS numbers used for the intervals are modelled as rationals; thrown JS
error values are modelled as strings.
-/

namespace PollHooks

/-- Failure values thrown or rejected by hooks and source calls. -/
abbrev Err := String

/-- `LifecyclePhase` from `types.ts`. -/
inductive LifecyclePhase where
  | boot
  | work
  | idle
  | shutdown
deriving DecidableEq

/-- `Task` from `types.ts` (the fields the engine reads; the optional
`createdAt` is never consulted by the engine). `priority` is a runtime string:
the TS `Priority` union is erased at runtime and `triage` must cope with
arbitrary values. -/
structure Task (α : Type) where
  id : String
  priority : String
  payload : α
deriving DecidableEq

/-- `Message` from `types.ts` (the fields the engine reads; the optional
`priority` and `createdAt` are never consulted by the engine). -/
structure Message (β : Type) where
  id : String
  source : String
  type : String
  payload : β
deriving DecidableEq

/-- The runtime value found when indexing the `PRIORITY_ORDER` record with an
arbitrary string: one of the five numeric own properties, or — because an
object literal inherits from `Object.prototype` — a non-nullish inherited
member (a function, or the `__proto__` accessor's object) that is not a
number. -/
inductive PriorityProp where
  | rank (n : Nat)
  | protoMember
deriving DecidableEq

/-- The property names every plain object literal inherits from
`Object.prototype`. -/
def objectProtoKeys : List String :=
  ["constructor", "hasOwnProperty", "isPrototypeOf", "propertyIsEnumerable",
   "toLocaleString", "toString", "valueOf", "__defineGetter__",
   "__defineSetter__", "__lookupGetter__", "__lookupSetter__", "__proto__"]

/-- `PRIORITY_ORDER[p]` from `types.ts` as the runtime lookup: the five own
keys map to their ranks; a property name of `Object.prototype` finds the
inherited member (non-nullish, not a number); every other string gives
JS `undefined` (`none`). -/
def PRIORITY_ORDER (p : String) : Option PriorityProp :=
  if p = "interrupt" then some (.rank 0)
  else if p = "sprint" then some (.rank 1)
  else if p = "parallel" then some (.rank 2)
  else if p = "queue" then some (.rank 3)
  else if p = "backlog" then some (.rank 4)
  else if p ∈ objectProtoKeys then some .protoMember
  else none

/-- Whether `p` is one of the five priorities of the TS `Priority` union. -/
def isKnownPriority (p : String) : Bool :=
  match PRIORITY_ORDER p with
  | some (.rank _) => true
  | _ => false

/-- The numeric value one side of the triage comparator takes after `?? 999`:
the rank for a known priority, `999` when the lookup gave `undefined`, and
`none` when the lookup found a non-numeric inherited member — in which case
the subtraction `pa - pb` evaluates to `NaN`. -/
def comparatorKey (p : String) : Option Nat :=
  match PRIORITY_ORDER p with
  | some (.rank n) => some n
  | some .protoMember => none
  | none => some 999

/-- The effective rank `PRIORITY_ORDER[p] ?? 999` read as a number, used to
state order properties; it is the number the comparator actually computes
with exactly when `comparatorKey p` is not `none`. -/
def priorityRank (p : String) : Nat :=
  (comparatorKey p).getD 999

/-- The `SortCompare` outcome `comparator(a, b) ≤ 0` on comparator keys: a
numeric comparison when both sides are numbers, and a tie (`NaN` is mapped to
`+0` by `SortCompare`) when either side is a non-numeric inherited member. -/
def keyLE : Option Nat → Option Nat → Prop
  | some x, some y => x ≤ y
  | _, _ => True

instance : (x y : Option Nat) → Decidable (keyLE x y)
  | some _, some _ => Nat.decLe _ _
  | some _, none => isTrue trivial
  | none, some _ => isTrue trivial
  | none, none => isTrue trivial

/-- "`a` does not come after `b`" under the triage comparator
`(a, b) => (PRIORITY_ORDER[a.priority] ?? 999) - (PRIORITY_ORDER[b.priority] ?? 999)`
as `Array.prototype.sort` reads it through `SortCompare`. -/
def taskLE {α : Type} (a b : Task α) : Prop :=
  keyLE (comparatorKey a.priority) (comparatorKey b.priority)

instance {α : Type} : DecidableRel (@taskLE α) := fun a b =>
  inferInstanceAs (Decidable (keyLE (comparatorKey a.priority) (comparatorKey b.priority)))

/-- The rank comparison the comparator performs when both sides are numeric:
on collections free of prototype-key priorities the comparator is consistent
and `Array.prototype.sort` is specified to sort exactly by this total
preorder. -/
def rankLE {α : Type} (a b : Task α) : Prop :=
  priorityRank a.priority ≤ priorityRank b.priority

instance {α : Type} : DecidableRel (@rankLE α) :=
  fun a b => Nat.decLe (priorityRank a.priority) (priorityRank b.priority)

instance {α : Type} : IsTotal (Task α) rankLE :=
  ⟨fun a b => Nat.le_total (priorityRank a.priority) (priorityRank b.priority)⟩

instance {α : Type} : IsTrans (Task α) rankLE :=
  ⟨fun _ _ _ h1 h2 => Nat.le_trans h1 h2⟩

/-- `Poller.triage`: `[...tasks].sort(comparator)`. The model is a stable
comparison sort (insertion sort, structurally recursive so it computes by
definitional reduction) driven by the `SortCompare` relation `taskLE`. When
the comparator is consistent on the collection — every priority's comparator
key is numeric, i.e. no priority is an `Object.prototype` property name —
ECMAScript specifies the result exactly: the stable sort by ascending rank,
which this function implements. When the comparator is inconsistent (a `NaN`
tie is present) ECMAScript leaves the order implementation-defined and this
model fixes one concrete stable comparison sort; on a two-element tied input
every stable comparison sort, and every real engine, keeps the pair in input
order, which is all the counterexamples below rely on. The spread copy
`[...tasks]` leaves the input untouched, which the functional embedding
reflects automatically. -/
def triage {α : Type} (tasks : List (Task α)) : List (Task α) :=
  tasks.insertionSort taskLE

/-- The observable actions of the engine, in the order they are performed:
hook invocations, source calls, error reports, and arming the timer. -/
inductive Event (α : Type) where
  | bootHook (workerId : String)
  | workHook
  | idleHook (workerId : String)
  | shutdownHook (workerId : String)
  | claimCall (taskId : String)
  | taskStartHook (task : Task α)
  | completeCall (taskId : String)
  | taskCompleteHook (task : Task α)
  | ackCall (target : String) (text : String)
  | errorHook (error : Err) (phase : LifecyclePhase) (task : Option (Task α))
  | scheduleNext (intervalMs : ℚ)
deriving DecidableEq

/-- Outcome oracle for the user-supplied `onError` hook, which may itself
throw: given the reported error, phase, and optional task, it either returns
or throws. -/
abbrev ErrHook (α : Type) :=
  Err → LifecyclePhase → Option (Task α) → Except Err Unit

/-- Resolved configuration fields set by the `Poller` constructor. -/
structure PollerConfig where
  workerId : String
  baseInterval : ℚ
  maxInterval : ℚ
  backoffMultiplier : ℚ
deriving DecidableEq

/-- Constructor options (`PollHooksOptions`), with the optional numeric
fields. -/
structure PollerOptions where
  workerId : String
  intervalMs : Option ℚ := none
  maxIntervalMs : Option ℚ := none
  backoffMultiplier : Option ℚ := none

/-- Mutable per-instance state of a `Poller`: lifecycle phase, running flag,
current backoff interval, and whether a timer for the next cycle is armed. -/
structure PollerState where
  phase : LifecyclePhase
  running : Bool
  currentInterval : ℚ
  timerSet : Bool
deriving DecidableEq

/-- The `Poller` constructor: applies the option defaults (`5000`, `60000`,
`1.5`) and starts with `currentInterval = baseInterval`, phase `boot`, not
running, no timer. -/
def mkPoller (o : PollerOptions) : PollerConfig × PollerState :=
  ({ workerId := o.workerId
     baseInterval := o.intervalMs.getD 5000
     maxInterval := o.maxIntervalMs.getD 60000
     backoffMultiplier := o.backoffMultiplier.getD 1.5 },
   { phase := .boot
     running := false
     currentInterval := o.intervalMs.getD 5000
     timerSet := false })

/-- Oracle for one poll cycle: the outcome of the combined fetch, of every
hook the cycle can invoke, and of every source call, keyed by task or message
id. `stopIndex = some k` means an external `stop()` flips the running flag off
while the cycle is in flight, after `k` tasks of the task loop have been
handled (the loop re-checks the flag before each task); `none` means the flag
stays set for the whole cycle. -/
structure CycleEnv (α β : Type) where
  fetch : Except Err (List (Task α) × List (Message β))
  onWork : Except Err Unit
  onIdle : Except Err Unit
  claim : String → Except Err Bool
  onTaskStart : String → Except Err Unit
  complete : String → Except Err Unit
  onTaskComplete : String → Except Err Unit
  ack : String → Except Err Unit
  stopIndex : Option Nat

/-- `Poller.handleError`: invoke the `onError` hook with the failure, the
phase, and the optional task, inside its own `try`/`catch` whose handler drops
any secondary failure. -/
def handleError {α : Type} (onErr : ErrHook α) (e : Err) (phase : LifecyclePhase)
    (task : Option (Task α)) : List (Event α) :=
  match onErr e phase task with
  | .ok _ => [Event.errorHook e phase task]
  | .error _ => [Event.errorHook e phase task]

/-- `Poller.processTask`: claim, then start hook, then source `complete`, then
complete hook, the whole sequence inside one `try`/`catch` that reports a
failure at any step through `handleError` tagged `"work"` with the task. -/
def processTask {α β : Type} (onErr : ErrHook α) (env : CycleEnv α β)
    (task : Task α) : List (Event α) :=
  Event.claimCall task.id ::
    match env.claim task.id with
    | .error e => handleError onErr e .work (some task)
    | .ok false => []
    | .ok true =>
      Event.taskStartHook task ::
        match env.onTaskStart task.id with
        | .error e => handleError onErr e .work (some task)
        | .ok _ =>
          Event.completeCall task.id ::
            match env.complete task.id with
            | .error e => handleError onErr e .work (some task)
            | .ok _ =>
              Event.taskCompleteHook task ::
                match env.onTaskComplete task.id with
                | .error e => handleError onErr e .work (some task)
                | .ok _ => []

/-- Whether the running flag is still set when the task loop reaches its
`i`-th iteration, under the external-stop schedule of the oracle. -/
def runningAt (stopIndex : Option Nat) (i : Nat) : Bool :=
  match stopIndex with
  | none => true
  | some n => decide (i < n)

/-- The task loop of `Poller.poll`: `for (const task of sorted) { if
(!this.running) break; await this.processTask(task); }`. -/
def processTasks {α β : Type} (onErr : ErrHook α) (env : CycleEnv α β)
    (i : Nat) : List (Task α) → List (Event α)
  | [] => []
  | t :: ts =>
    if runningAt env.stopIndex i then
      processTask onErr env t ++ processTasks onErr env (i + 1) ts
    else []

/-- The acknowledgement text `Received {msg.type}: {msg.id}`. -/
def ackText {β : Type} (m : Message β) : String :=
  "Received " ++ m.type ++ ": " ++ m.id

/-- The message loop of `Poller.poll`: one `source.ack` call per message, in
order, each inside its own `try`/`catch` reporting failures tagged `"work"`.
The loop does not consult the running flag. -/
def ackMessages {α β : Type} (onErr : ErrHook α) (env : CycleEnv α β) :
    List (Message β) → List (Event α)
  | [] => []
  | m :: ms =>
    (Event.ackCall m.source (ackText m) ::
      match env.ack m.id with
      | .ok _ => []
      | .error e => handleError onErr e .work none)
    ++ ackMessages onErr env ms

/-- `Poller.scheduleNext`: arm the timer for the next cycle after the given
delay, unless the engine has stopped. -/
def scheduleEvents {α : Type} (running : Bool) (intervalMs : ℚ) : List (Event α) :=
  if running then [Event.scheduleNext intervalMs] else []

/-- Whether the engine is still running when the cycle reaches its final
`scheduleNext` call. -/
def endRunning {α β : Type} (env : CycleEnv α β) : Bool :=
  env.stopIndex.isNone

/-- Result of one poll cycle: the state as updated by the cycle's own writes,
the actions in the order performed, and the `{ tasks, messages }` value the
cycle resolves with. -/
structure PollResult (α β : Type) where
  state : PollerState
  events : List (Event α)
  tasks : List (Task α)
  messages : List (Message β)
deriving DecidableEq

/-- One poll cycle, `Poller.poll`: early return when not running; combined
fetch whose failure is reported under the current phase and aborts the cycle
after still scheduling the next one; triage; then either the work path (phase
`work`, backoff reset, work hook, task loop, message loop) or the idle path
(phase `idle`, backoff growth clamped to the maximum, idle hook); finally the
next cycle is scheduled and the triaged tasks and messages are returned. -/
def poll {α β : Type} (cfg : PollerConfig) (onErr : ErrHook α) (st : PollerState)
    (env : CycleEnv α β) : PollResult α β :=
  if st.running then
    match env.fetch with
    | .error e =>
        { state := { st with timerSet := if endRunning env then true else st.timerSet }
          events := handleError onErr e st.phase none
            ++ scheduleEvents (endRunning env) st.currentInterval
          tasks := []
          messages := [] }
    | .ok (tasks, messages) =>
        if 0 < (triage tasks).length ∨ 0 < messages.length then
          { state := { st with phase := .work
                               currentInterval := cfg.baseInterval
                               timerSet := if endRunning env then true else st.timerSet }
            events := Event.workHook
                :: (match env.onWork with
                    | .ok _ => []
                    | .error e => handleError onErr e .work none)
                ++ processTasks onErr env 0 (triage tasks)
                ++ ackMessages onErr env messages
                ++ scheduleEvents (endRunning env) cfg.baseInterval
            tasks := triage tasks
            messages := messages }
        else
          { state := { st with phase := .idle
                               currentInterval :=
                                 min (st.currentInterval * cfg.backoffMultiplier) cfg.maxInterval
                               timerSet := if endRunning env then true else st.timerSet }
            events := Event.idleHook cfg.workerId
                :: (match env.onIdle with
                    | .ok _ => []
                    | .error e => handleError onErr e .idle none)
                ++ scheduleEvents (endRunning env)
                     (min (st.currentInterval * cfg.backoffMultiplier) cfg.maxInterval)
            tasks := triage tasks
            messages := messages }
  else
    { state := st, events := [], tasks := [], messages := [] }

/-- Iterated poll cycles: the state reached after running one cycle per oracle
in the list. -/
def runCycles {α β : Type} (cfg : PollerConfig) (onErr : ErrHook α)
    (st : PollerState) : List (CycleEnv α β) → PollerState
  | [] => st
  | env :: rest => runCycles cfg onErr (poll cfg onErr st env).state rest

/-- `Poller.stop`: clear the running flag, cancel any pending timer, set phase
`shutdown`, and invoke the shutdown hook, reporting (not re-throwing) its
failure tagged `"shutdown"`. -/
def stop {α : Type} (cfg : PollerConfig) (onErr : ErrHook α)
    (onShutdown : Except Err Unit) (st : PollerState) :
    PollerState × List (Event α) :=
  ({ st with running := false, timerSet := false, phase := .shutdown },
   Event.shutdownHook cfg.workerId ::
     match onShutdown with
     | .ok _ => []
     | .error e => handleError onErr e .shutdown none)

/-- `Poller.start`: no-op when already running; otherwise set the running flag
and phase `boot` and invoke the boot hook. A boot hook that returns `false`
aborts silently; a boot hook that throws is reported tagged `"boot"` and
aborts; otherwise one poll cycle runs immediately. -/
def start {α β : Type} (cfg : PollerConfig) (onErr : ErrHook α)
    (onBoot : Except Err (Option Bool)) (env : CycleEnv α β) (st : PollerState) :
    PollerState × List (Event α) :=
  if st.running then (st, [])
  else
    match onBoot with
    | .ok (some false) =>
        ({ st with running := false, phase := .boot }, [Event.bootHook cfg.workerId])
    | .error e =>
        ({ st with running := false, phase := .boot },
         Event.bootHook cfg.workerId :: handleError onErr e .boot none)
    | .ok _ =>
        (Prod.mk
          (poll cfg onErr { st with running := true, phase := .boot } env).state
          (Event.bootHook cfg.workerId ::
            (poll cfg onErr { st with running := true, phase := .boot } env).events))

/-- Recognizer for acknowledgement calls among a cycle's events. -/
def isAckEvent {α : Type} : Event α → Bool
  | .ackCall _ _ => true
  | _ => false

/-! ### Concrete fixtures used by the closed witness and counterexample
theorems -/

/-- An `onError` oracle that always returns normally. -/
def okErr : ErrHook Unit := fun _ _ _ => .ok ()

/-- An `onError` oracle that itself always throws, to exercise the swallowing
of secondary failures. -/
def throwingErr : ErrHook Unit := fun e _ _ => .error e

/-- A cycle oracle that finds nothing and where every call succeeds. -/
def quietEnv : CycleEnv Unit Unit :=
  { fetch := .ok ([], [])
    onWork := .ok ()
    onIdle := .ok ()
    claim := fun _ => .ok true
    onTaskStart := fun _ => .ok ()
    complete := fun _ => .ok ()
    onTaskComplete := fun _ => .ok ()
    ack := fun _ => .ok ()
    stopIndex := none }

def sprintTask : Task Unit := { id := "t1", priority := "sprint", payload := () }

def urgentTask : Task Unit := { id := "t2", priority := "interrupt", payload := () }

def oddTask : Task Unit := { id := "t3", priority := "whenever", payload := () }

/-- A task whose priority string is a property name of `Object.prototype`:
the lookup finds the inherited `toString` function, so the comparator
computes `NaN`. -/
def protoTask : Task Unit := { id := "t4", priority := "toString", payload := () }

def statusMsg : Message Unit :=
  { id := "m1", source := "worker-2", type := "STATUS", payload := () }

/-- A cycle oracle with one sprint task and one message, everything
succeeding. -/
def busyEnv : CycleEnv Unit Unit :=
  { quietEnv with fetch := .ok ([sprintTask], [statusMsg]) }

/-- A cycle oracle whose fetch fails. -/
def failFetchEnv : CycleEnv Unit Unit :=
  { quietEnv with fetch := .error "boom" }

/-- A cycle oracle where the claim is denied. -/
def deniedEnv : CycleEnv Unit Unit :=
  { quietEnv with fetch := .ok ([sprintTask], []), claim := fun _ => .ok false }

/-- A cycle oracle with two tasks and one message where an external `stop()`
lands after the first task of the loop. -/
def stoppedEnv : CycleEnv Unit Unit :=
  { quietEnv with fetch := .ok ([sprintTask, urgentTask], [statusMsg])
                  stopIndex := some 1 }

/-- A cycle oracle with work found where the work hook, the task-start hook
and the acknowledgement call all throw. -/
def faultyEnv : CycleEnv Unit Unit :=
  { quietEnv with fetch := .ok ([sprintTask], [statusMsg])
                  onWork := .error "wh"
                  onTaskStart := fun _ => .error "sh"
                  ack := fun _ => .error "ah" }

/-- Options giving the default configuration. -/
def defaultOpts : PollerOptions := { workerId := "w" }

/-- A running engine state holding the default base interval. -/
def runningState : PollerState :=
  { phase := .idle, running := true, currentInterval := 5000, timerSet := false }

/-- Options with a backoff multiplier below one. -/
def shrinkOpts : PollerOptions :=
  { workerId := "w", intervalMs := some 10, maxIntervalMs := some 100,
    backoffMultiplier := some (1 / 2) }

/-! ### Shared lemmas about the priority table and triage -/

/-- Congruence for `orderedInsert` under relations that agree between the
inserted element and the list. -/
theorem orderedInsert_congr {α : Type} {r s : α → α → Prop}
    [DecidableRel r] [DecidableRel s] (a : α) :
    ∀ l : List α, (∀ b ∈ l, r a b ↔ s a b) →
      l.orderedInsert r a = l.orderedInsert s a
  | [], _ => rfl
  | b :: l, h => by
    simp only [List.orderedInsert]
    by_cases hrb : r a b
    · rw [if_pos hrb, if_pos ((h b (List.mem_cons_self b l)).mp hrb)]
    · rw [if_neg hrb,
        if_neg (fun hsb => hrb ((h b (List.mem_cons_self b l)).mpr hsb)),
        orderedInsert_congr a l (fun c hc => h c (List.mem_cons_of_mem b hc))]

/-- Congruence for `insertionSort` under relations that agree on the list. -/
theorem insertionSort_congr {α : Type} {r s : α → α → Prop}
    [DecidableRel r] [DecidableRel s] :
    ∀ l : List α, (∀ a ∈ l, ∀ b ∈ l, r a b ↔ s a b) →
      l.insertionSort r = l.insertionSort s
  | [], _ => rfl
  | a :: l, h => by
    simp only [List.insertionSort]
    rw [insertionSort_congr l (fun x hx y hy =>
      h x (List.mem_cons_of_mem a hx) y (List.mem_cons_of_mem a hy))]
    exact orderedInsert_congr a (l.insertionSort s) (fun b hb =>
      h a (List.mem_cons_self a l) b
        (List.mem_cons_of_mem a ((List.mem_insertionSort s).mp hb)))

/-- On a collection every one of whose priorities has a numeric comparator
key — no priority string is an `Object.prototype` property name — the
comparator is consistent and the sort coincides with the stable sort by
ascending rank. -/
theorem triage_eq_rank_sort {α : Type} (l : List (Task α))
    (hl : ∀ t ∈ l, comparatorKey t.priority ≠ none) :
    triage l = l.insertionSort rankLE := by
  unfold triage
  refine insertionSort_congr l (fun a ha b hb => ?_)
  rcases hx : comparatorKey a.priority with _ | x
  · exact absurd hx (hl a ha)
  · rcases hy : comparatorKey b.priority with _ | y
    · exact absurd hy (hl b hb)
    · unfold taskLE rankLE priorityRank
      rw [hx, hy]
      simp [keyLE]

/-- A known priority has comparator value below the `?? 999` fallback. -/
theorem priorityRank_lt_of_known {s : String}
    (h : isKnownPriority s = true) : priorityRank s < 999 := by
  unfold isKnownPriority at h
  unfold priorityRank comparatorKey
  rcases hp : PRIORITY_ORDER s with _ | v
  · rw [hp] at h
    simp at h
  · rcases v with n | _
    · have hn : n ≤ 4 := by
        unfold PRIORITY_ORDER at hp
        split_ifs at hp <;> simp_all <;> omega
      simp
      omega
    · rw [hp] at h
      simp at h

/-- A priority that is neither known nor a prototype property name takes the
fallback value `999`. -/
theorem priorityRank_of_unknown {s : String} (h1 : isKnownPriority s = false)
    (h2 : comparatorKey s ≠ none) : priorityRank s = 999 := by
  unfold isKnownPriority at h1
  unfold comparatorKey at h2
  unfold priorityRank comparatorKey
  rcases hp : PRIORITY_ORDER s with _ | v
  · rfl
  · rcases v with n | _
    · rw [hp] at h1
      simp at h1
    · rw [hp] at h2
      simp at h2

/-- A numeric-key list sorted by rank splits as its known-priority entries
followed by its unknown-priority entries. -/
theorem sorted_split_known {α : Type} :
    ∀ l : List (Task α), (∀ t ∈ l, comparatorKey t.priority ≠ none) →
      l.Pairwise rankLE →
      l = l.filter (fun t => isKnownPriority t.priority)
        ++ l.filter (fun t => !isKnownPriority t.priority)
  | [], _, _ => rfl
  | a :: t, hl, h => by
    obtain ⟨ha, ht⟩ := List.pairwise_cons.mp h
    have hlt : ∀ u ∈ t, comparatorKey u.priority ≠ none :=
      fun u hu => hl u (List.mem_cons_of_mem a hu)
    rcases Bool.eq_false_or_eq_true (isKnownPriority a.priority) with hk | hk
    · rw [@List.filter_cons_of_pos (Task α)
          (fun u => isKnownPriority u.priority) a t hk,
        @List.filter_cons_of_neg (Task α)
          (fun u => !isKnownPriority u.priority) a t (by simp [hk]),
        List.cons_append]
      exact congrArg (a :: ·) (sorted_split_known t hlt ht)
    · have h999 : priorityRank a.priority = 999 :=
        priorityRank_of_unknown hk (hl a (List.mem_cons_self a t))
      have htk : t.filter (fun u => isKnownPriority u.priority) = [] := by
        rw [List.filter_eq_nil_iff]
        intro b hb hkb
        have h1 : priorityRank b.priority < 999 :=
          priorityRank_lt_of_known (by simpa using hkb)
        have h2 : priorityRank a.priority ≤ priorityRank b.priority := ha b hb
        rw [h999] at h2
        omega
      have iht := sorted_split_known t hlt ht
      rw [htk, List.nil_append] at iht
      rw [@List.filter_cons_of_neg (Task α)
          (fun u => isKnownPriority u.priority) a t (by simp [hk]),
        @List.filter_cons_of_pos (Task α)
          (fun u => !isKnownPriority u.priority) a t (by simp [hk]),
        htk, List.nil_append]
      exact congrArg (a :: ·) iht

/-- Triage is a permutation of its input, for every collection. -/
theorem triage_perm {α : Type} (l : List (Task α)) : (triage l).Perm l :=
  List.perm_insertionSort taskLE l

/-- On a numeric-key collection the triage output is sorted by rank. -/
theorem triage_pairwise {α : Type} (l : List (Task α))
    (hl : ∀ t ∈ l, comparatorKey t.priority ≠ none) :
    (triage l).Pairwise rankLE := by
  rw [triage_eq_rank_sort l hl]
  exact List.sorted_insertionSort rankLE l

/-- Stability of triage on a numeric-key collection, per rank: the tasks of
any fixed rank appear in the output exactly as they appear in the input. -/
theorem triage_filter_key {α : Type} (l : List (Task α)) (k : Nat)
    (hl : ∀ t ∈ l, comparatorKey t.priority ≠ none) :
    (triage l).filter (fun t => priorityRank t.priority == k)
      = l.filter (fun t => priorityRank t.priority == k) := by
  rw [triage_eq_rank_sort l hl]
  have hpw : (l.filter (fun t => priorityRank t.priority == k)).Pairwise rankLE := by
    refine List.pairwise_of_forall_mem_list ?_
    intro b hb c hc
    have hbk : priorityRank b.priority = k := by
      simpa using (List.mem_filter.mp hb).2
    have hck : priorityRank c.priority = k := by
      simpa using (List.mem_filter.mp hc).2
    unfold rankLE
    omega
  have hsub : List.Sublist (l.filter (fun t => priorityRank t.priority == k))
      (l.insertionSort rankLE) :=
    List.sublist_insertionSort hpw (List.filter_sublist l)
  have hself : (l.filter (fun t => priorityRank t.priority == k)).filter
      (fun t => priorityRank t.priority == k)
      = l.filter (fun t => priorityRank t.priority == k) :=
    List.filter_eq_self.mpr (fun a ha => (List.mem_filter.mp ha).2)
  have h2 := hsub.filter (fun t => priorityRank t.priority == k)
  rw [hself] at h2
  have hlen : ((l.insertionSort rankLE).filter
        (fun t => priorityRank t.priority == k)).length
      = (l.filter (fun t => priorityRank t.priority == k)).length :=
    ((List.perm_insertionSort rankLE l).filter
      (fun t => priorityRank t.priority == k)).length_eq
  exact (h2.eq_of_length hlen.symm).symm

/-! ### Claim theorems about triage -/

/-- Claim C2 (amended): on every task collection none of whose priority
strings is an `Object.prototype` property name — so every comparator value is
numeric, the comparator is consistent, and `Array.prototype.sort`'s result is
specified — triage returns a sequence containing exactly the same tasks (a
permutation), ordered by ascending effective rank (`interrupt = 0`,
`sprint = 1`, `parallel = 2`, `queue = 3`, `backlog = 4`, any other string
`999`), and tasks of equal rank keep their relative input order (stability,
stated per rank as filter preservation). The input list itself is untouched,
matching the spread copy in the source. (The unamended claim over every
collection is refuted by `triage_contract_counterexample`: a prototype-key
priority makes the comparator return `NaN`, an inconsistent tie.) -/
theorem triage_contract {α : Type} (l : List (Task α))
    (hl : ∀ t ∈ l, comparatorKey t.priority ≠ none) :
    (triage l).Perm l ∧
    (triage l).Pairwise
      (fun a b => priorityRank a.priority ≤ priorityRank b.priority) ∧
    ∀ k : Nat, (triage l).filter (fun t => priorityRank t.priority == k)
      = l.filter (fun t => priorityRank t.priority == k) :=
  ⟨triage_perm l, triage_pairwise l hl, fun k => triage_filter_key l k hl⟩

/-- Witness for claim C2 at a concrete collection (an unknown non-prototype
priority, a sprint and an interrupt task): the hypothesis holds by
computation and the output is the stable ascending-rank sort. -/
theorem triage_contract_witness :
    triage [oddTask, sprintTask, urgentTask]
      = [urgentTask, sprintTask, oddTask] ∧
    (triage [oddTask, sprintTask, urgentTask]).Perm
      [oddTask, sprintTask, urgentTask] :=
  ⟨by decide, (triage_contract [oddTask, sprintTask, urgentTask] (by decide)).1⟩

/-- Counterexample to claim C2 as stated: with the prototype-key priority
`"toString"` the lookup finds the inherited function, `?? 999` keeps it, and
the comparator computes `NaN`, which `SortCompare` turns into a tie; the
two-element collection `[protoTask, urgentTask]` is therefore returned
unchanged — as every stable comparison sort, and every real engine, keeps a
tied pair in input order — and the output is not ordered by ascending
effective rank. -/
theorem triage_contract_counterexample :
    triage [protoTask, urgentTask] = [protoTask, urgentTask] ∧
    ¬ (triage [protoTask, urgentTask]).Pairwise
        (fun a b : Task Unit =>
          priorityRank a.priority ≤ priorityRank b.priority) := by
  have he : triage [protoTask, urgentTask] = [protoTask, urgentTask] := by decide
  refine ⟨he, fun hpw => ?_⟩
  rw [he] at hpw
  have h1 := (List.pairwise_cons.mp hpw).1 urgentTask
    (List.mem_cons_self urgentTask [])
  exact absurd h1 (by decide)

/-- Claim C3 (amended): triage cannot fail on any collection (the modelled
lookup-with-fallback is a total function) and drops no task (the permutation
holds with no hypothesis); and on every collection none of whose priority
strings is an `Object.prototype` property name, every task with an unknown
priority is placed after every known-priority task. (The unamended claim over
all unknown strings is refuted by `triage_unknown_counterexample`: the
prototype-key priority `"toString"` is unknown yet ties with everything and
stays in front of a known-priority task.) -/
theorem triage_unknown_after_known {α : Type} (l : List (Task α))
    (hl : ∀ t ∈ l, comparatorKey t.priority ≠ none) :
    (triage l).Perm l ∧
    ∃ l₁ l₂, triage l = l₁ ++ l₂ ∧
      (∀ t ∈ l₁, isKnownPriority t.priority = true) ∧
      (∀ t ∈ l₂, isKnownPriority t.priority = false) := by
  have hlt : ∀ t ∈ triage l, comparatorKey t.priority ≠ none :=
    fun t ht => hl t ((triage_perm l).mem_iff.mp ht)
  refine ⟨triage_perm l,
    (triage l).filter (fun t => isKnownPriority t.priority),
    (triage l).filter (fun t => !isKnownPriority t.priority),
    sorted_split_known (triage l) hlt (triage_pairwise l hl), ?_, ?_⟩
  · intro t htm
    exact (List.mem_filter.mp htm).2
  · intro t htm
    have h2 := (List.mem_filter.mp htm).2
    simpa using h2

/-- Witness for claim C3: an unknown (non-prototype) priority sorts after the
known one. -/
theorem triage_unknown_after_known_witness :
    (triage [oddTask, urgentTask]).Perm [oddTask, urgentTask] ∧
    triage [oddTask, urgentTask] = [urgentTask] ++ [oddTask] ∧
    isKnownPriority urgentTask.priority = true ∧
    isKnownPriority oddTask.priority = false :=
  ⟨(triage_unknown_after_known [oddTask, urgentTask] (by decide)).1,
   by decide, by decide, by decide⟩

/-- Counterexample to claim C3 as stated: `"toString"` is outside the known
priority set, yet the task carrying it is not placed after the known-priority
task — the pair ties (`NaN` → `+0`) and is returned unchanged, unknown task
first, so no known-then-unknown split of the output exists. -/
theorem triage_unknown_counterexample :
    isKnownPriority protoTask.priority = false ∧
    isKnownPriority urgentTask.priority = true ∧
    triage [protoTask, urgentTask] = [protoTask, urgentTask] ∧
    ¬ ∃ l₁ l₂ : List (Task Unit),
        triage [protoTask, urgentTask] = l₁ ++ l₂ ∧
        (∀ t ∈ l₁, isKnownPriority t.priority = true) ∧
        (∀ t ∈ l₂, isKnownPriority t.priority = false) := by
  have he : triage [protoTask, urgentTask] = [protoTask, urgentTask] := by decide
  refine ⟨by decide, by decide, he, ?_⟩
  rintro ⟨l₁, l₂, heq, h₁, h₂⟩
  rw [he] at heq
  rcases l₁ with _ | ⟨a, t⟩
  · rw [List.nil_append] at heq
    have hm : urgentTask ∈ l₂ := by
      rw [← heq]
      exact List.mem_cons_of_mem protoTask (List.mem_cons_self urgentTask [])
    exact absurd (h₂ urgentTask hm) (by decide)
  · rw [List.cons_append] at heq
    injection heq with hhead htail
    have hk := h₁ a (List.mem_cons_self a t)
    rw [← hhead] at hk
    exact absurd hk (by decide)

/-! ### Shared lemmas about the backoff interval -/

/-- Triage preserves length. -/
theorem triage_length {α : Type} (l : List (Task α)) :
    (triage l).length = l.length :=
  List.length_insertionSort taskLE l

/-- A cycle that finds at least one task or message resets the interval to the
base. -/
theorem poll_resets_interval {α β : Type} (cfg : PollerConfig) (onErr : ErrHook α)
    (st : PollerState) (env : CycleEnv α β) (ts : List (Task α))
    (ms : List (Message β)) (hr : st.running = true)
    (hf : env.fetch = .ok (ts, ms)) (hne : ts ≠ [] ∨ ms ≠ []) :
    (poll cfg onErr st env).state.currentInterval = cfg.baseInterval := by
  have hw : 0 < (triage ts).length ∨ 0 < ms.length := by
    rcases hne with h | h
    · left
      rw [triage_length]
      exact List.length_pos.mpr h
    · right
      exact List.length_pos.mpr h
  simp [poll, hr, hf, hw]

/-- A cycle that finds nothing multiplies the interval by the backoff factor,
clamped to the maximum. -/
theorem poll_grows_interval {α β : Type} (cfg : PollerConfig) (onErr : ErrHook α)
    (st : PollerState) (env : CycleEnv α β) (hr : st.running = true)
    (hf : env.fetch = .ok ([], [])) :
    (poll cfg onErr st env).state.currentInterval
      = min (st.currentInterval * cfg.backoffMultiplier) cfg.maxInterval := by
  simp [poll, hr, hf, triage]

/-- One poll cycle keeps the interval inside `[baseInterval, maxInterval]`
whenever the configuration satisfies `0 ≤ base ≤ max` and `1 ≤ multiplier`. -/
theorem poll_interval_mem {α β : Type} (cfg : PollerConfig) (onErr : ErrHook α)
    (st : PollerState) (env : CycleEnv α β)
    (h0 : 0 ≤ cfg.baseInterval) (h1 : cfg.baseInterval ≤ cfg.maxInterval)
    (h2 : 1 ≤ cfg.backoffMultiplier)
    (hlo : cfg.baseInterval ≤ st.currentInterval)
    (hhi : st.currentInterval ≤ cfg.maxInterval) :
    cfg.baseInterval ≤ (poll cfg onErr st env).state.currentInterval ∧
      (poll cfg onErr st env).state.currentInterval ≤ cfg.maxInterval := by
  cases hr : st.running with
  | false =>
    simp only [poll, hr, Bool.false_eq_true, if_false]
    exact ⟨hlo, hhi⟩
  | true =>
    cases hf : env.fetch with
    | error e =>
      simp only [poll, hr, hf, if_true]
      exact ⟨hlo, hhi⟩
    | ok p =>
      obtain ⟨ts, ms⟩ := p
      by_cases hw : 0 < (triage ts).length ∨ 0 < ms.length
      · simp only [poll, hr, hf, hw, if_true]
        exact ⟨le_refl _, h1⟩
      · simp only [poll, hr, hf, hw, if_true, if_false]
        refine ⟨le_min (hlo.trans (le_mul_of_one_le_right (h0.trans hlo) h2)) h1, ?_⟩
        exact min_le_right _ _

/-- Any number of poll cycles keeps the interval inside the band. -/
theorem runCycles_interval_mem {α β : Type} (cfg : PollerConfig)
    (onErr : ErrHook α) (h0 : 0 ≤ cfg.baseInterval)
    (h1 : cfg.baseInterval ≤ cfg.maxInterval) (h2 : 1 ≤ cfg.backoffMultiplier) :
    ∀ (envs : List (CycleEnv α β)) (st : PollerState),
      cfg.baseInterval ≤ st.currentInterval → st.currentInterval ≤ cfg.maxInterval →
      cfg.baseInterval ≤ (runCycles cfg onErr st envs).currentInterval ∧
        (runCycles cfg onErr st envs).currentInterval ≤ cfg.maxInterval
  | [], _, hlo, hhi => ⟨hlo, hhi⟩
  | env :: rest, st, hlo, hhi => by
    have h := poll_interval_mem cfg onErr st env h0 h1 h2 hlo hhi
    exact runCycles_interval_mem cfg onErr h0 h1 h2 rest _ h.1 h.2

/-! ### Claim theorems about the backoff controller -/

/-- Claim C1 (amended): for every configuration whose resolved values satisfy
`0 ≤ baseInterval ≤ maxInterval` and `backoffMultiplier ≥ 1` — which includes
the defaults 5000/60000/1.5 — the current interval starts at `baseInterval`
at construction, is reset to `baseInterval` by every cycle on a running
engine that finds at least one task or message, is multiplied by the
configured factor and clamped to `maxInterval` by every cycle that finds
nothing, and stays inside `[baseInterval, maxInterval]` across any sequence of
poll cycles. (The unamended claim, quantified over all configurations, is
refuted by `backoff_interval_counterexample`.) -/
theorem backoff_interval_invariant {α β : Type} (o : PollerOptions) (b : Bool)
    (onErr : ErrHook α) (envs : List (CycleEnv α β))
    (h0 : 0 ≤ (mkPoller o).1.baseInterval)
    (h1 : (mkPoller o).1.baseInterval ≤ (mkPoller o).1.maxInterval)
    (h2 : 1 ≤ (mkPoller o).1.backoffMultiplier) :
    (mkPoller o).2.currentInterval = (mkPoller o).1.baseInterval ∧
    (∀ (st : PollerState) (env : CycleEnv α β) (ts : List (Task α))
        (ms : List (Message β)),
      st.running = true → env.fetch = .ok (ts, ms) → (ts ≠ [] ∨ ms ≠ []) →
      (poll (mkPoller o).1 onErr st env).state.currentInterval
        = (mkPoller o).1.baseInterval) ∧
    (∀ (st : PollerState) (env : CycleEnv α β),
      st.running = true → env.fetch = .ok ([], []) →
      (poll (mkPoller o).1 onErr st env).state.currentInterval
        = min (st.currentInterval * (mkPoller o).1.backoffMultiplier)
            (mkPoller o).1.maxInterval) ∧
    ((mkPoller o).1.baseInterval
        ≤ (runCycles (mkPoller o).1 onErr
            { (mkPoller o).2 with running := b } envs).currentInterval ∧
      (runCycles (mkPoller o).1 onErr
          { (mkPoller o).2 with running := b } envs).currentInterval
        ≤ (mkPoller o).1.maxInterval) := by
  refine ⟨rfl, ?_, ?_, ?_⟩
  · intro st env ts ms hr hf hne
    exact poll_resets_interval (mkPoller o).1 onErr st env ts ms hr hf hne
  · intro st env hr hf
    exact poll_grows_interval (mkPoller o).1 onErr st env hr hf
  · exact runCycles_interval_mem (mkPoller o).1 onErr h0 h1 h2 envs
      { (mkPoller o).2 with running := b } (le_of_eq rfl) h1

/-- Witness for claim C1 at the default configuration 5000/60000/1.5: the
hypotheses hold and one idle cycle from a started default engine keeps the
interval inside the band. -/
theorem backoff_interval_invariant_witness :
    ((0 : ℚ) ≤ (mkPoller defaultOpts).1.baseInterval
      ∧ (mkPoller defaultOpts).1.baseInterval ≤ (mkPoller defaultOpts).1.maxInterval
      ∧ (1 : ℚ) ≤ (mkPoller defaultOpts).1.backoffMultiplier) ∧
    ((mkPoller defaultOpts).1.baseInterval
        ≤ (runCycles (mkPoller defaultOpts).1 okErr
            { (mkPoller defaultOpts).2 with running := true } [quietEnv]).currentInterval ∧
      (runCycles (mkPoller defaultOpts).1 okErr
          { (mkPoller defaultOpts).2 with running := true } [quietEnv]).currentInterval
        ≤ (mkPoller defaultOpts).1.maxInterval) :=
  ⟨⟨by norm_num [mkPoller, defaultOpts], by norm_num [mkPoller, defaultOpts],
    by norm_num [mkPoller, defaultOpts]⟩,
   (backoff_interval_invariant defaultOpts true okErr [quietEnv]
      (by norm_num [mkPoller, defaultOpts]) (by norm_num [mkPoller, defaultOpts])
      (by norm_num [mkPoller, defaultOpts])).2.2.2⟩

/-- Counterexample to claim C1 as stated: it quantifies over every
configuration, but with base 10, max 100 and multiplier 1/2 the engine is
constructed at interval 10 and a single empty cycle after `start` drops the
interval to 5, strictly below `baseInterval`. -/
theorem backoff_interval_counterexample :
    (mkPoller shrinkOpts).2.currentInterval = 10 ∧
    (mkPoller shrinkOpts).1.baseInterval = 10 ∧
    (start (mkPoller shrinkOpts).1 okErr (.ok none) quietEnv
        (mkPoller shrinkOpts).2).1.currentInterval = 5 ∧
    ¬((10 : ℚ) ≤ 5) := by
  refine ⟨rfl, rfl, ?_, by norm_num⟩
  norm_num [start, poll, mkPoller, shrinkOpts, quietEnv, triage, endRunning]

/-! ### Shared lemmas about the engine cycle -/

/-- `handleError` reports through the error hook exactly once and swallows a
failure of the error hook itself: its trace is the single report, whatever the
error hook does. -/
theorem handleError_events {α : Type} (onErr : ErrHook α) (e : Err)
    (phase : LifecyclePhase) (task : Option (Task α)) :
    handleError onErr e phase task = [Event.errorHook e phase task] := by
  unfold handleError
  cases onErr e phase task <;> rfl

/-- The task loop with no external stop handles every task in order. -/
theorem processTasks_no_stop {α β : Type} (onErr : ErrHook α) (env : CycleEnv α β)
    (hs : env.stopIndex = none) :
    ∀ (i : Nat) (ts : List (Task α)),
      processTasks onErr env i ts = ts.flatMap (processTask onErr env)
  | _, [] => rfl
  | i, t :: ts => by
    simp [processTasks, runningAt, hs, processTasks_no_stop onErr env hs (i + 1) ts]

/-- The task loop under an external stop after `k` handled tasks handles
exactly the first `k - i` remaining tasks. -/
theorem processTasks_stopped {α β : Type} (onErr : ErrHook α) (env : CycleEnv α β)
    (k : Nat) (hs : env.stopIndex = some k) :
    ∀ (i : Nat) (ts : List (Task α)),
      processTasks onErr env i ts
        = (ts.take (k - i)).flatMap (processTask onErr env)
  | _, [] => by simp [processTasks]
  | i, t :: ts => by
    by_cases hik : i < k
    · have htake : k - i = (k - (i + 1)) + 1 := by omega
      simp [processTasks, runningAt, hs, hik, htake,
        processTasks_stopped onErr env k hs (i + 1) ts]
    · have htake : k - i = 0 := by omega
      simp [processTasks, runningAt, hs, hik, htake]

/-- Changing the behaviour of the error hook never changes what `processTask`
does. -/
theorem processTask_onErr {α β : Type} (f g : ErrHook α) (env : CycleEnv α β)
    (t : Task α) : processTask f env t = processTask g env t := by
  simp only [processTask, handleError_events]

/-- Changing the behaviour of the error hook never changes what the task loop
does. -/
theorem processTasks_onErr {α β : Type} (f g : ErrHook α) (env : CycleEnv α β) :
    ∀ (i : Nat) (ts : List (Task α)),
      processTasks f env i ts = processTasks g env i ts
  | _, [] => rfl
  | i, t :: ts => by
    simp only [processTasks, processTask_onErr f g env t,
      processTasks_onErr f g env (i + 1) ts]

/-- Changing the behaviour of the error hook never changes what the message
loop does. -/
theorem ackMessages_onErr {α β : Type} (f g : ErrHook α) (env : CycleEnv α β) :
    ∀ ms : List (Message β), ackMessages f env ms = ackMessages g env ms
  | [] => rfl
  | m :: ms => by
    simp only [ackMessages, handleError_events, ackMessages_onErr f g env ms]

/-- Changing the behaviour of the error hook never changes the outcome of a
poll cycle. -/
theorem poll_onErr {α β : Type} (cfg : PollerConfig) (f g : ErrHook α)
    (st : PollerState) (env : CycleEnv α β) :
    poll cfg f st env = poll cfg g st env := by
  cases hr : st.running with
  | false => simp [poll, hr]
  | true =>
    cases hf : env.fetch with
    | error e => simp [poll, hr, hf, handleError_events]
    | ok p =>
      obtain ⟨ts, ms⟩ := p
      by_cases hw : 0 < (triage ts).length ∨ 0 < ms.length
      · simp [poll, hr, hf, hw, handleError_events,
          processTasks_onErr f g env 0 (triage ts), ackMessages_onErr f g env ms]
      · simp [poll, hr, hf, hw, handleError_events]

/-- The last event of any cycle on a running, un-stopped engine is arming the
timer with the cycle's resulting interval, and the timer ends up armed —
whatever any hook or source call does. -/
theorem poll_always_schedules {α β : Type} (cfg : PollerConfig)
    (onErr : ErrHook α) (st : PollerState) (env : CycleEnv α β)
    (hr : st.running = true) (hs : env.stopIndex = none) :
    (poll cfg onErr st env).state.timerSet = true ∧
    (poll cfg onErr st env).events.getLast?
      = some (Event.scheduleNext (poll cfg onErr st env).state.currentInterval) := by
  have hend : endRunning env = true := by simp [endRunning, hs]
  cases hf : env.fetch with
  | error e =>
    refine ⟨by simp [poll, hr, hf, hend], ?_⟩
    simp only [poll, hr, hf, hend, if_true, handleError_events, scheduleEvents]
    simp [← List.append_assoc, ← List.cons_append, List.getLast?_concat]
  | ok p =>
    obtain ⟨ts, ms⟩ := p
    by_cases hw : 0 < (triage ts).length ∨ 0 < ms.length
    · refine ⟨by simp [poll, hr, hf, hw, hend], ?_⟩
      simp only [poll, hr, hf, hw, hend, if_true, scheduleEvents]
      rw [List.getLast?_concat]
    · refine ⟨by simp [poll, hr, hf, hw, hend], ?_⟩
      simp only [poll, hr, hf, hend, if_true, scheduleEvents]
      rw [if_neg hw]
      rw [List.getLast?_concat]

/-! ### Claim theorem about fetch failure -/

/-- Claim C4: on a running engine (with no concurrent stop), a failing fetch
makes the cycle report the failure exactly once through the error hook tagged
with the engine's phase at the time of the call, schedule the next cycle, and
return empty collections; phase and interval are untouched and no work/idle
hook, task processing, or acknowledgement happens. -/
theorem fetch_failure_isolated {α β : Type} (cfg : PollerConfig)
    (onErr : ErrHook α) (st : PollerState) (env : CycleEnv α β) (e : Err)
    (hr : st.running = true) (hs : env.stopIndex = none)
    (hf : env.fetch = .error e) :
    poll cfg onErr st env =
      { state := { st with timerSet := true }
        events := [Event.errorHook e st.phase none,
                   Event.scheduleNext st.currentInterval]
        tasks := []
        messages := [] } := by
  have hend : endRunning env = true := by simp [endRunning, hs]
  simp [poll, hr, hf, hend, handleError_events, scheduleEvents]

/-- Witness for claim C4: a concrete running engine whose fetch throws
`"boom"` while idle at interval 5000. -/
theorem fetch_failure_isolated_witness :
    poll (mkPoller defaultOpts).1 okErr runningState failFetchEnv =
      { state := { runningState with timerSet := true }
        events := [Event.errorHook "boom" .idle none, Event.scheduleNext 5000]
        tasks := ([] : List (Task Unit))
        messages := ([] : List (Message Unit)) } :=
  fetch_failure_isolated (mkPoller defaultOpts).1 okErr runningState failFetchEnv
    "boom" rfl rfl rfl

/-! ### Claim theorem about error isolation -/

/-- Claim C8: failures of hooks and source calls are each converted into one
error-hook report and suppressed (established site by site by
`fetch_failure_isolated`, `processTask_protocol` and `messages_acknowledged`);
this theorem states the two global halves: a failure of the error hook itself
is swallowed unconditionally — the entire outcome of a cycle is independent of
the error-hook behaviour — and on a running engine with no concurrent stop
every cycle, whatever any hook or source call does, ends with the timer armed
for the next cycle (the last event is `scheduleNext`), so no failure can halt
the polling loop or leave the next cycle unscheduled. -/
theorem error_isolation {α β : Type} (cfg : PollerConfig) (f g : ErrHook α)
    (st : PollerState) (env : CycleEnv α β)
    (hr : st.running = true) (hs : env.stopIndex = none) :
    poll cfg f st env = poll cfg g st env ∧
    (poll cfg f st env).state.timerSet = true ∧
    (poll cfg f st env).events.getLast?
      = some (Event.scheduleNext (poll cfg f st env).state.currentInterval) :=
  ⟨poll_onErr cfg f g st env, (poll_always_schedules cfg f st env hr hs).1,
   (poll_always_schedules cfg f st env hr hs).2⟩

/-- Witness for claim C8: a cycle whose work hook, task-start hook and
acknowledgement call all throw, under an error hook that itself throws,
behaves exactly as under an error hook that returns, and still arms the
timer. -/
theorem error_isolation_witness :
    poll (mkPoller defaultOpts).1 throwingErr runningState faultyEnv
      = poll (mkPoller defaultOpts).1 okErr runningState faultyEnv ∧
    (poll (mkPoller defaultOpts).1 throwingErr runningState faultyEnv).state.timerSet
      = true ∧
    (poll (mkPoller defaultOpts).1 throwingErr runningState faultyEnv).events.getLast?
      = some (Event.scheduleNext
          (poll (mkPoller defaultOpts).1 throwingErr runningState
            faultyEnv).state.currentInterval) :=
  error_isolation (mkPoller defaultOpts).1 throwingErr okErr runningState faultyEnv
    rfl rfl

/-! ### Claim theorem about task processing -/

/-- Claim C5: per task, a denied claim means no hooks, no `complete` call and
no error report; a granted claim runs start hook, source `complete`, complete
hook in exactly that order; a failure thrown at any step yields exactly one
error report tagged `work` carrying the task and aborts only that task's
remaining steps; and (last conjunct) the task loop handles every task of the
cycle independently, so one task's failure does not stop the rest of the
cycle. -/
theorem processTask_protocol {α β : Type} (onErr : ErrHook α)
    (env : CycleEnv α β) (t : Task α) :
    (env.claim t.id = .ok false →
      processTask onErr env t = [Event.claimCall t.id]) ∧
    (∀ e, env.claim t.id = .error e →
      processTask onErr env t
        = [Event.claimCall t.id, Event.errorHook e .work (some t)]) ∧
    (env.claim t.id = .ok true → env.onTaskStart t.id = .ok () →
      env.complete t.id = .ok () → env.onTaskComplete t.id = .ok () →
      processTask onErr env t
        = [Event.claimCall t.id, Event.taskStartHook t, Event.completeCall t.id,
           Event.taskCompleteHook t]) ∧
    (∀ e, env.claim t.id = .ok true → env.onTaskStart t.id = .error e →
      processTask onErr env t
        = [Event.claimCall t.id, Event.taskStartHook t,
           Event.errorHook e .work (some t)]) ∧
    (∀ e, env.claim t.id = .ok true → env.onTaskStart t.id = .ok () →
      env.complete t.id = .error e →
      processTask onErr env t
        = [Event.claimCall t.id, Event.taskStartHook t, Event.completeCall t.id,
           Event.errorHook e .work (some t)]) ∧
    (∀ e, env.claim t.id = .ok true → env.onTaskStart t.id = .ok () →
      env.complete t.id = .ok () → env.onTaskComplete t.id = .error e →
      processTask onErr env t
        = [Event.claimCall t.id, Event.taskStartHook t, Event.completeCall t.id,
           Event.taskCompleteHook t, Event.errorHook e .work (some t)]) ∧
    (∀ (i : Nat) (ts : List (Task α)), env.stopIndex = none →
      processTasks onErr env i ts = ts.flatMap (processTask onErr env)) := by
  refine ⟨?_, ?_, ?_, ?_, ?_, ?_, ?_⟩
  · intro h
    simp [processTask, h]
  · intro e h
    simp [processTask, h, handleError_events]
  · intro h1 h2 h3 h4
    simp [processTask, h1, h2, h3, h4]
  · intro e h1 h2
    simp [processTask, h1, h2, handleError_events]
  · intro e h1 h2 h3
    simp [processTask, h1, h2, h3, handleError_events]
  · intro e h1 h2 h3 h4
    simp [processTask, h1, h2, h3, h4, handleError_events]
  · intro i ts hs
    exact processTasks_no_stop onErr env hs i ts

/-- Witness for claim C5: a denied claim leaves only the claim call in the
trace; a granted claim with an all-success oracle produces exactly the
claim/start/complete/complete-hook sequence. -/
theorem processTask_protocol_witness :
    processTask okErr deniedEnv sprintTask = [Event.claimCall "t1"] ∧
    processTask okErr busyEnv sprintTask
      = [Event.claimCall "t1", Event.taskStartHook sprintTask,
         Event.completeCall "t1", Event.taskCompleteHook sprintTask] :=
  ⟨(processTask_protocol okErr deniedEnv sprintTask).1 rfl,
   (processTask_protocol okErr busyEnv sprintTask).2.2.1 rfl rfl rfl rfl⟩

/-! ### Shared lemmas about the message loop -/

/-- Arming the timer contributes no acknowledgement call. -/
theorem scheduleEvents_filter_ack {α : Type} (r : Bool) (q : ℚ) :
    (scheduleEvents r q : List (Event α)).filter isAckEvent = [] := by
  cases r <;> simp [scheduleEvents, isAckEvent]

/-- Task processing contributes no acknowledgement call. -/
theorem processTask_filter_ack {α β : Type} (onErr : ErrHook α)
    (env : CycleEnv α β) (t : Task α) :
    (processTask onErr env t).filter isAckEvent = [] := by
  unfold processTask
  cases env.claim t.id with
  | error e => simp [handleError_events, isAckEvent]
  | ok b =>
    cases b with
    | false => simp [isAckEvent]
    | true =>
      cases env.onTaskStart t.id with
      | error e => simp [handleError_events, isAckEvent]
      | ok u =>
        cases env.complete t.id with
        | error e => simp [handleError_events, isAckEvent]
        | ok v =>
          cases env.onTaskComplete t.id with
          | error e => simp [handleError_events, isAckEvent]
          | ok w => simp [isAckEvent]

/-- The task loop contributes no acknowledgement call. -/
theorem processTasks_filter_ack {α β : Type} (onErr : ErrHook α)
    (env : CycleEnv α β) :
    ∀ (i : Nat) (ts : List (Task α)),
      (processTasks onErr env i ts).filter isAckEvent = []
  | _, [] => rfl
  | i, t :: ts => by
    unfold processTasks
    cases runningAt env.stopIndex i
    · simp
    · simp [List.filter_append, processTask_filter_ack,
        processTasks_filter_ack onErr env (i + 1) ts]

/-- The acknowledgement calls of the message loop are exactly one per message,
in order, with the message's source as target and the formatted text. -/
theorem ackMessages_filter_ack {α β : Type} (onErr : ErrHook α)
    (env : CycleEnv α β) :
    ∀ ms : List (Message β),
      (ackMessages onErr env ms).filter isAckEvent
        = ms.map (fun m => Event.ackCall m.source (ackText m))
  | [] => rfl
  | m :: ms => by
    unfold ackMessages
    cases env.ack m.id with
    | ok u => simp [isAckEvent, ackMessages_filter_ack onErr env ms]
    | error e =>
      simp [handleError_events, isAckEvent, ackMessages_filter_ack onErr env ms]

/-- Full trace of the message loop: one acknowledgement call per message in
order, a failing call adding exactly one `work`-tagged report and never
stopping the remaining messages. -/
theorem ackMessages_spec {α β : Type} (onErr : ErrHook α) (env : CycleEnv α β) :
    ∀ ms : List (Message β),
      ackMessages onErr env ms
        = ms.flatMap (fun m => Event.ackCall m.source (ackText m) ::
            (match env.ack m.id with
             | .ok _ => []
             | .error e => [Event.errorHook e .work none]))
  | [] => rfl
  | m :: ms => by
    unfold ackMessages
    cases hm : env.ack m.id with
    | ok u => simp [hm, ackMessages_spec onErr env ms]
    | error e => simp [hm, handleError_events, ackMessages_spec onErr env ms]

/-- The acknowledgement calls of a whole cycle are exactly one per fetched
message, in order. -/
theorem poll_filter_ack {α β : Type} (cfg : PollerConfig) (onErr : ErrHook α)
    (st : PollerState) (env : CycleEnv α β) (ts : List (Task α))
    (ms : List (Message β)) (hr : st.running = true)
    (hf : env.fetch = .ok (ts, ms)) :
    (poll cfg onErr st env).events.filter isAckEvent
      = ms.map (fun m => Event.ackCall m.source (ackText m)) := by
  by_cases hw : 0 < (triage ts).length ∨ 0 < ms.length
  · simp only [poll, hr, hf, hw, if_true]
    cases ho : env.onWork with
    | ok u =>
      simp [List.filter_append, isAckEvent, processTasks_filter_ack,
        ackMessages_filter_ack, scheduleEvents_filter_ack, ho]
    | error e =>
      simp [List.filter_append, isAckEvent, processTasks_filter_ack,
        ackMessages_filter_ack, scheduleEvents_filter_ack, ho, handleError_events]
  · have hms : ms = [] := by
      rcases Nat.eq_zero_or_pos ms.length with h | h
      · exact List.length_eq_zero.mp h
      · exact absurd (Or.inr h) hw
    subst hms
    simp only [poll, hr, hf]
    rw [if_neg hw]
    cases ho : env.onIdle with
    | ok u => simp [List.filter_append, isAckEvent, scheduleEvents_filter_ack, ho]
    | error e =>
      simp [List.filter_append, isAckEvent, scheduleEvents_filter_ack, ho,
        handleError_events]

/-! ### Claim theorem about message acknowledgement -/

/-- Claim C6: every message fetched by a cycle produces exactly one
acknowledge call on the source during that cycle, in order, targeted at the
message's `source` field with text `Received {type}: {id}`; a failing
acknowledgement adds exactly one `work`-tagged error report and never prevents
the remaining messages from being acknowledged. -/
theorem messages_acknowledged {α β : Type} (cfg : PollerConfig)
    (onErr : ErrHook α) (st : PollerState) (env : CycleEnv α β)
    (ts : List (Task α)) (ms : List (Message β)) (hr : st.running = true)
    (hf : env.fetch = .ok (ts, ms)) :
    (poll cfg onErr st env).events.filter isAckEvent
      = ms.map (fun m => Event.ackCall m.source (ackText m)) ∧
    ackMessages onErr env ms
      = ms.flatMap (fun m => Event.ackCall m.source (ackText m) ::
          (match env.ack m.id with
           | .ok _ => []
           | .error e => [Event.errorHook e .work none])) :=
  ⟨poll_filter_ack cfg onErr st env ts ms hr hf, ackMessages_spec onErr env ms⟩

/-- Witness for claim C6: one fetched message yields exactly one acknowledge
call targeted at `worker-2` with text `Received STATUS: m1`. -/
theorem messages_acknowledged_witness :
    (poll (mkPoller defaultOpts).1 okErr runningState busyEnv).events.filter isAckEvent
      = [Event.ackCall "worker-2" "Received STATUS: m1"] ∧
    ackMessages okErr busyEnv [statusMsg]
      = [Event.ackCall "worker-2" "Received STATUS: m1"] := by
  have h := messages_acknowledged (mkPoller defaultOpts).1 okErr runningState busyEnv
    [sprintTask] [statusMsg] rfl rfl
  exact ⟨h.1.trans (by decide), h.2.trans (by decide)⟩

/-! ### Claim theorem about stop -/

/-- Claim C7: `stop()` clears the running flag, cancels any pending timer,
sets phase `shutdown` and invokes the shutdown hook with the worker identity;
a shutdown-hook failure is reported through the error hook tagged `shutdown`
and not re-thrown (the trace ends after the single report); a second `stop()`
produces exactly the same result as the first, so the operation is
idempotent. -/
theorem stop_idempotent {α : Type} (cfg : PollerConfig) (onErr : ErrHook α)
    (onShutdown : Except Err Unit) (st : PollerState) :
    (stop cfg onErr onShutdown st).1.running = false ∧
    (stop cfg onErr onShutdown st).1.timerSet = false ∧
    (stop cfg onErr onShutdown st).1.phase = .shutdown ∧
    (stop cfg onErr onShutdown st).1.currentInterval = st.currentInterval ∧
    (onShutdown = .ok () →
      (stop cfg onErr onShutdown st).2 = [Event.shutdownHook cfg.workerId]) ∧
    (∀ e, onShutdown = .error e →
      (stop cfg onErr onShutdown st).2
        = [Event.shutdownHook cfg.workerId, Event.errorHook e .shutdown none]) ∧
    stop cfg onErr onShutdown (stop cfg onErr onShutdown st).1
      = stop cfg onErr onShutdown st := by
  refine ⟨rfl, rfl, rfl, rfl, ?_, ?_, ?_⟩
  · intro h
    simp [stop, h]
  · intro e h
    simp [stop, h, handleError_events]
  · simp [stop]

/-- Witness for claim C7: a failing shutdown hook yields the hook invocation
followed by one `shutdown`-tagged report, and stopping twice equals stopping
once. -/
theorem stop_idempotent_witness :
    (stop (mkPoller defaultOpts).1 okErr (.error "sh") runningState).2
      = [Event.shutdownHook "w", Event.errorHook "sh" .shutdown none] ∧
    stop (mkPoller defaultOpts).1 okErr (.ok ())
        (stop (mkPoller defaultOpts).1 okErr (.ok ()) runningState).1
      = stop (mkPoller defaultOpts).1 okErr (.ok ()) runningState :=
  ⟨(stop_idempotent (mkPoller defaultOpts).1 okErr (.error "sh")
      runningState).2.2.2.2.2.1 "sh" rfl,
   (stop_idempotent (mkPoller defaultOpts).1 okErr (.ok ())
      runningState).2.2.2.2.2.2⟩

/-! ### Claim theorem about stopping mid-cycle -/

/-- Claim C10: when `stop()` lands while a cycle is in its task loop after `k`
tasks, the remaining tasks are skipped (the loop re-checks the running flag
before each task), the cycle no longer arms the timer, but every fetched
message is still acknowledged: the message loop does not consult the running
flag, so the full trace still contains exactly one acknowledge call per
message. -/
theorem stop_midcycle_acks {α β : Type} (cfg : PollerConfig) (onErr : ErrHook α)
    (st : PollerState) (env : CycleEnv α β) (ts : List (Task α))
    (ms : List (Message β)) (k : Nat) (hr : st.running = true)
    (hf : env.fetch = .ok (ts, ms)) (hs : env.stopIndex = some k)
    (hw : 0 < (triage ts).length ∨ 0 < ms.length) :
    (poll cfg onErr st env).events
      = (Event.workHook
          :: (match env.onWork with
              | .ok _ => []
              | .error e => [Event.errorHook e .work none]))
        ++ ((triage ts).take k).flatMap (processTask onErr env)
        ++ ackMessages onErr env ms ∧
    (poll cfg onErr st env).events.filter isAckEvent
      = ms.map (fun m => Event.ackCall m.source (ackText m)) := by
  refine ⟨?_, poll_filter_ack cfg onErr st env ts ms hr hf⟩
  have hend : endRunning env = false := by simp [endRunning, hs]
  simp [poll, hr, hf, hw, hend, scheduleEvents, handleError_events,
    processTasks_stopped onErr env k hs 0 (triage ts)]

/-- Witness for claim C10: two tasks and one message with a stop after the
first handled task — only the top-priority task is processed, yet the message
is still acknowledged and no next cycle is armed. -/
theorem stop_midcycle_acks_witness :
    (poll (mkPoller defaultOpts).1 okErr runningState stoppedEnv).events
      = [Event.workHook, Event.claimCall "t2", Event.taskStartHook urgentTask,
         Event.completeCall "t2", Event.taskCompleteHook urgentTask,
         Event.ackCall "worker-2" "Received STATUS: m1"] ∧
    (poll (mkPoller defaultOpts).1 okErr runningState stoppedEnv).events.filter
        isAckEvent
      = [Event.ackCall "worker-2" "Received STATUS: m1"] := by
  have h := stop_midcycle_acks (mkPoller defaultOpts).1 okErr runningState
    stoppedEnv [sprintTask, urgentTask] [statusMsg] 1 rfl rfl rfl
    (Or.inl (by decide))
  exact ⟨h.1.trans (by decide), h.2.trans (by decide)⟩

end PollHooks
